import Mathlib

/-!
# Verification of the libaaarg audio-mangling core

Shallow embedding of the two signal blocks of the repository
(`src/blocks/alias.rs`, `src/blocks/stutter.rs`) and of the `alias`
pipeline function (`src/lib.rs`), together with theorems settling the
frozen claims about them.

Modelling conventions:
* A sample is a value of an arbitrary type `α` (the Rust code is generic
  over `S : Sample`); buffers are Lean `List`s.
* The input is modelled per the spec's data model as an undifferentiated
  scalar sample sequence with a sample rate (channel interleaving is not
  modelled; the spec treats the input as a scalar sequence).
* `Duration` values are nanosecond counts (`Nat`), exactly as Rust's
  `Duration` stores them.  The code's `(d.as_secs_f32() * rate as f32).floor()`
  is modelled by the exact rational computation `d * rate / 10^9`; on the
  concrete inputs used below the `f32` computation agrees exactly.
* `rodio`'s `take_duration(d)` is modelled as taking
  `floor(d_secs * sample_rate)` samples ("a window covering `d` of source
  playback time", in the spec's words).
* Randomness is made explicit: every `rng.gen_range` call consumes one
  value from an entropy stream `e : Nat → Nat` at a statically-known
  index, and maps it into the requested range by a modulus (so every
  value of the range is reachable and every drawn value lies in the
  range).  `gen_range` on an empty or inverted range panics in `rand`;
  that is modelled by an `Option` result.
* Rust panics (empty-range draws, `usize`/`u64` subtraction underflow in
  an overflow-checked build, out-of-bounds `copy_within`) are modelled by
  the `RunResult.aborted` outcome; the unbounded stutter tiling loop gets
  explicit fuel, `RunResult.timeout` meaning the loop is still running
  after `fuel` iterations (for every fuel).
-/

/-- An input sample sequence: the materializable content together with its
sample rate, modelling a `rodio::Source` as the spec's Sample Sequence. -/
structure SampleSource (α : Type) where
  samples : List α
  sampleRate : Nat
deriving DecidableEq

/-- `rodio::buffer::SamplesBuffer`: the Output Buffer, stamped with a
channel count and a sample rate. -/
structure SamplesBuffer (α : Type) where
  channels : Nat
  sampleRate : Nat
  samples : List α
deriving DecidableEq

/-- Outcome of running an embedded block: a result value, a Rust panic
(`aborted`), or fuel exhaustion of the tiling loop (`timeout`). -/
inductive RunResult (α : Type) where
  | done (val : α)
  | aborted
  | timeout
deriving DecidableEq

/-- Map the success value of a run outcome. -/
def RunResult.mapDone (f : α → β) : RunResult α → RunResult β
  | .done a => .done (f a)
  | .aborted => .aborted
  | .timeout => .timeout

/-- `(d.as_secs_f32() * sample_rate as f32).floor()` for a `Duration` of
`d` nanoseconds, computed exactly: `⌊d·rate / 10^9⌋`. -/
def durationToSamples (d rate : Nat) : Nat :=
  d * rate / 1000000000

/-- `rng.gen_range(lo..=hi)` over an inclusive integer range, fed by one
entropy value `x`; `none` models the panic on an empty range. -/
def genRangeNat (lo hi x : Nat) : Option Nat :=
  if lo ≤ hi then some (lo + x % (hi - lo + 1)) else none

/-- `rng.gen_range(0..n)` over a half-open range, fed by one entropy value
`x`; `none` models the panic on an empty range. -/
def genRangeHalf (n x : Nat) : Option Nat :=
  if 0 < n then some (x % n) else none

/-- Skip-counter loop of `Iterator::step_by(k)`: `c` elements remain to
be skipped before the next element is kept. -/
def stepByAux (k : Nat) : Nat → List α → List α
  | _, [] => []
  | 0, x :: xs => x :: stepByAux k (k - 1) xs
  | c + 1, _ :: xs => stepByAux k c xs

/-- `Iterator::step_by(k)`: keep the elements at indices `0, k, 2k, …`. -/
def stepBy (k : Nat) (l : List α) : List α := stepByAux k 0 l

/-- One cursor advance of the jittered alias path:
`(rng.gen_range(-v..=v) + factor).max(0)`, with the draw derived from one
entropy value `x` as `x % (2v+1) - v ∈ [-v, v]`. -/
def jitterStep (k v x : Nat) : Nat :=
  (((x % (2 * v + 1) : Nat) : Int) - (v : Int) + (k : Int)).toNat

/-- The jittered-path collection loop of `AliasBlock::process`
(`src/blocks/alias.rs` lines 57–68): `r` is the remaining number of
samples to collect (`sample_count - collected`), `i` the cursor, `t` the
index of the next entropy draw.  Stops early when the cursor leaves the
window. -/
def jitterWalk (samples : List α) (k v : Nat) (e : Nat → Nat) :
    Nat → Nat → Nat → List α
  | 0, _, _ => []
  | r + 1, i, t =>
    match samples[i]? with
    | none => []
    | some s => s :: jitterWalk samples k v e r (i + jitterStep k v (e t)) (t + 1)

/-- `slice::copy_within(s..e, dest)`: copy the range `[s, e)` to position
`dest`; `none` models the panic when the range is inverted or either the
read or the write would be out of bounds. -/
def copyWithin (l : List α) (s e dest : Nat) : Option (List α) :=
  if s ≤ e ∧ e ≤ l.length ∧ dest + (e - s) ≤ l.length then
    some (l.take dest ++ (l.drop s).take (e - s) ++ l.drop (dest + (e - s)))
  else none

/-- The inner tiling loop of `StutterBlock::process`
(`src/blocks/stutter.rs` lines 54–66), with explicit fuel.  Returns the
trace of the sample slices actually copied (one entry per executed
`copy_within`) together with the outcome.  The truncated piece length is
the source's `start - source.len()`, whose `usize` underflow when
`start < source.len()` is modelled as a panic. -/
def stutterTile (loc piece dur : Nat) :
    Nat → Nat → List α → List (List α) × RunResult (List α)
  | 0, stuttered, buf =>
    if stuttered < dur then ([], .timeout) else ([], .done buf)
  | fuel + 1, stuttered, buf =>
    if stuttered < dur then
      let start := loc + stuttered
      let tlOpt : Option Nat :=
        if start + piece > buf.length then
          if start < buf.length then none else some (start - buf.length)
        else some piece
      match tlOpt with
      | none => ([], .aborted)
      | some tl =>
        match copyWithin buf loc (loc + tl) start with
        | none => ([], .aborted)
        | some buf' =>
          let rest := stutterTile loc piece dur fuel (stuttered + tl) buf'
          ((buf.drop loc).take tl :: rest.1, rest.2)
    else ([], .done buf)

/-- `StutterBlock` (`src/blocks/stutter.rs`): the three inclusive
parameter ranges, counts as plain naturals and durations in
nanoseconds. -/
structure StutterBlock where
  countLo : Nat
  countHi : Nat
  durLo : Nat
  durHi : Nat
  pieceLo : Nat
  pieceHi : Nat

/-- The per-event loop of `StutterBlock::process` (lines 48–67): `r`
events remain, `j` events already ran (fixing the entropy indices:
event `j` draws its duration, piece length and location at entropy
indices `3j+1`, `3j+2`, `3j+3`).  The location draw
`gen_range(0..(len as u64 - dur))` aborts when `dur > len` (underflow) or
`dur = len` (empty range). -/
def stutterEvents (p : StutterBlock) (rate : Nat) (e : Nat → Nat) (fuel : Nat) :
    Nat → Nat → List α → RunResult (List α)
  | 0, _, buf => .done buf
  | r + 1, j, buf =>
    match genRangeNat p.durLo p.durHi (e (3 * j + 1)) with
    | none => .aborted
    | some dn =>
      match genRangeNat p.pieceLo p.pieceHi (e (3 * j + 2)) with
      | none => .aborted
      | some pn =>
        let dur := durationToSamples dn rate
        let piece := durationToSamples pn rate
        if dur > buf.length then .aborted
        else
          match genRangeHalf (buf.length - dur) (e (3 * j + 3)) with
          | none => .aborted
          | some loc =>
            match stutterTile loc piece dur fuel 0 buf with
            | (_, .done buf') => stutterEvents p rate e fuel r (j + 1) buf'
            | (_, .aborted) => .aborted
            | (_, .timeout) => .timeout

/-- The stutter stage (`src/blocks/stutter.rs` lines 46–68, identically
`src/lib.rs` lines 153–175): skipped entirely when the upper bound of
`stutter_count` is `0`, otherwise the count is drawn at entropy index 0
and that many events run. -/
def stutterStage (p : StutterBlock) (rate : Nat) (buf : List α)
    (e : Nat → Nat) (fuel : Nat) : RunResult (List α) :=
  if 0 < p.countHi then
    match genRangeNat p.countLo p.countHi (e 0) with
    | none => .aborted
    | some count => stutterEvents p rate e fuel count 0 buf
  else .done buf

/-- `StutterBlock::process`: materialize the source, run the stutter
stage, and stamp the result as a 2-channel, 44100 Hz `SamplesBuffer`. -/
def StutterBlock.process (p : StutterBlock) (src : SampleSource α)
    (e : Nat → Nat) (fuel : Nat) : RunResult (SamplesBuffer α) :=
  (stutterStage p src.sampleRate src.samples e fuel).mapDone
    (fun l => ⟨2, 44100, l⟩)

/-- `AliasBlock` (`src/blocks/alias.rs`): factor, factor variation, and
target duration in nanoseconds. -/
structure AliasBlock where
  factor : Nat
  factorVariation : Nat
  targetDuration : Nat

/-- The aliasing computation of `AliasBlock::process`
(`src/blocks/alias.rs` lines 49–70, identically `src/lib.rs`
lines 131–152).  No-jitter path: take a window covering
`target_duration * factor * 4` of source playback time and keep every
`factor`-th sample (`step_by` panics when `factor = 0`).  Jittered path:
take a window covering `target_duration * factor`, then walk it with
jittered cursor advances until `target_sample_count` samples are
collected or the cursor leaves the window. -/
def aliasStage (p : AliasBlock) (src : SampleSource α) (e : Nat → Nat) :
    RunResult (List α) :=
  if p.factorVariation = 0 then
    if p.factor = 0 then .aborted
    else
      .done (stepBy p.factor
        (src.samples.take
          (durationToSamples (p.targetDuration * p.factor * 4) src.sampleRate)))
  else
    .done (jitterWalk
      (src.samples.take
        (durationToSamples (p.targetDuration * p.factor) src.sampleRate))
      p.factor p.factorVariation e
      (durationToSamples p.targetDuration src.sampleRate) 0 0)

/-- `AliasBlock::process`: the aliasing stage stamped as a 2-channel,
44100 Hz buffer. -/
def AliasBlock.process (p : AliasBlock) (src : SampleSource α)
    (e : Nat → Nat) : RunResult (SamplesBuffer α) :=
  (aliasStage p src e).mapDone (fun l => ⟨2, 44100, l⟩)

/-- The `alias` pipeline function of `src/lib.rs` (lines 118–177): the
aliasing stage followed by the stutter stage on the aliased buffer (the
stutter stage converts durations with the *input's* sample rate), stamped
2-channel 44100 Hz.  The two stages draw from independent entropy
streams. -/
def aliasFn (a : AliasBlock) (s : StutterBlock) (src : SampleSource α)
    (e₁ e₂ : Nat → Nat) (fuel : Nat) : RunResult (SamplesBuffer α) :=
  match aliasStage a src e₁ with
  | .done l =>
    (stutterStage s src.sampleRate l e₂ fuel).mapDone (fun l' => ⟨2, 44100, l'⟩)
  | .aborted => .aborted
  | .timeout => .timeout

theorem stepByAux_eq_drop (k : Nat) : ∀ (c : Nat) (l : List α),
    stepByAux k c l = stepByAux k 0 (l.drop c) := by
  intro c l
  induction l generalizing c with
  | nil => cases c <;> rfl
  | cons x xs ih =>
    cases c with
    | zero => rfl
    | succ c => simpa [stepByAux] using ih c

theorem stepBy_nil (k : Nat) : stepBy k ([] : List α) = [] := rfl

theorem stepBy_cons (k : Nat) (x : α) (xs : List α) :
    stepBy k (x :: xs) = x :: stepBy k (xs.drop (k - 1)) := by
  unfold stepBy
  rw [stepByAux]
  rw [stepByAux_eq_drop]

theorem stepBy_one (l : List α) : stepBy 1 l = l := by
  induction l with
  | nil => rfl
  | cons x xs ih => rw [stepBy_cons]; simpa using ih

theorem length_stepBy (k : Nat) (hk : 1 ≤ k) (l : List α) :
    (stepBy k l).length = (l.length + k - 1) / k := by
  suffices h : ∀ (n : Nat) (l : List α), l.length ≤ n →
      (stepBy k l).length = (l.length + k - 1) / k from h l.length l le_rfl
  intro n
  induction n with
  | zero =>
    intro l hl
    obtain rfl : l = [] := List.eq_nil_of_length_eq_zero (by omega)
    simp [stepBy_nil, Nat.div_eq_of_lt (by omega : k - 1 < k)]
  | succ n ih =>
    intro l hl
    cases l with
    | nil => simp [stepBy_nil, Nat.div_eq_of_lt (by omega : k - 1 < k)]
    | cons x xs =>
      have key : (xs.length - (k - 1) + k - 1) / k = xs.length / k := by
        rcases le_or_lt (k - 1) xs.length with h | h
        · congr 1; omega
        · rw [Nat.div_eq_of_lt (by omega), Nat.div_eq_of_lt (by omega)]
      have hxs : xs.length ≤ n := by
        simp only [List.length_cons] at hl
        omega
      rw [stepBy_cons]
      have hrec := ih (xs.drop (k - 1))
        (by simp only [List.length_drop]; omega)
      simp only [List.length_cons, hrec, List.length_drop]
      rw [key]
      have h2 : xs.length + 1 + k - 1 = xs.length + k := by omega
      rw [h2, Nat.add_div_right _ (by omega : 0 < k)]

theorem getElem?_stepBy (k : Nat) (hk : 1 ≤ k) (l : List α) (j : Nat) :
    (stepBy k l)[j]? = l[j * k]? := by
  suffices h : ∀ (n : Nat) (l : List α), l.length ≤ n → ∀ j : Nat,
      (stepBy k l)[j]? = l[j * k]? from h l.length l le_rfl j
  intro n
  induction n with
  | zero =>
    intro l hl j
    obtain rfl : l = [] := List.eq_nil_of_length_eq_zero (by omega)
    simp [stepBy_nil]
  | succ n ih =>
    intro l hl j
    cases l with
    | nil => simp [stepBy_nil]
    | cons x xs =>
      cases j with
      | zero => simp [stepBy_cons]
      | succ j =>
        have hxs : xs.length ≤ n := by
          simp only [List.length_cons] at hl
          omega
        have hrec := ih (xs.drop (k - 1))
          (by simp only [List.length_drop]; omega) j
        have hmul : (j + 1) * k = j * k + k := by ring
        have hidx : (j + 1) * k = (k - 1 + j * k) + 1 := by omega
        rw [stepBy_cons]
        simp only [List.getElem?_cons_succ, hrec, List.getElem?_drop, hidx]

theorem length_jitterWalk_le (samples : List α) (k v : Nat) (e : Nat → Nat) :
    ∀ r i t, (jitterWalk samples k v e r i t).length ≤ r := by
  intro r
  induction r with
  | zero => intro i t; simp [jitterWalk]
  | succ r ih =>
    intro i t
    simp only [jitterWalk]
    cases samples[i]? with
    | none => simp
    | some s => simpa using ih _ _

theorem jitterStep_bounds (k v x : Nat) :
    k - v ≤ jitterStep k v x ∧ jitterStep k v x ≤ k + v := by
  unfold jitterStep
  have h : x % (2 * v + 1) < 2 * v + 1 := Nat.mod_lt _ (by omega)
  omega

theorem copyWithin_length {l l' : List α} {s e d : Nat}
    (h : copyWithin l s e d = some l') : l'.length = l.length := by
  unfold copyWithin at h
  split at h
  · rename_i hc
    obtain ⟨h1, h2, h3⟩ := hc
    cases h
    simp only [List.length_append, List.length_take, List.length_drop]
    omega
  · cases h

theorem copyWithin_take_of_le {l l' : List α} {s e d : Nat}
    (h : copyWithin l s e d = some l') {b : Nat} (hb : b ≤ d) :
    l'.take b = l.take b := by
  unfold copyWithin at h
  split at h
  · rename_i hc
    obtain ⟨h1, h2, h3⟩ := hc
    cases h
    rw [List.take_append_eq_append_take, List.take_append_eq_append_take,
      List.take_take, List.length_take]
    have hd : d ≤ l.length := by omega
    have hm : min b d = b := by omega
    have hz : b - min d l.length = 0 := by omega
    rw [hm, hz]
    simp
    omega
  · cases h

theorem copyWithin_same {l : List α} {s e : Nat} (hse : s ≤ e)
    (he : e ≤ l.length) : copyWithin l s e s = some l := by
  unfold copyWithin
  rw [if_pos ⟨hse, he, by omega⟩]
  have h1 : s + (e - s) = e := by omega
  rw [h1, ← List.take_add, h1, List.take_append_drop]

theorem slice_eq_of_take_eq {l l' : List α} {a n : Nat}
    (h : l'.take (a + n) = l.take (a + n)) :
    (l'.drop a).take n = (l.drop a).take n := by
  have h2 := congrArg (List.drop a) h
  rwa [List.drop_take, List.drop_take, Nat.add_sub_cancel_left] at h2

theorem mapDone_eq_done {f : α → β} {r : RunResult α} {b : β}
    (h : r.mapDone f = .done b) : ∃ a, r = .done a ∧ b = f a := by
  cases r with
  | done a => exact ⟨a, rfl, by cases h; rfl⟩
  | aborted => cases h
  | timeout => cases h

theorem stutterTile_no_timeout_aux (loc piece dur : Nat) (hp : 1 ≤ piece) :
    ∀ (fuel stuttered : Nat) (buf : List α), loc + dur ≤ buf.length →
      dur ≤ fuel + stuttered →
      (stutterTile loc piece dur fuel stuttered buf).2 ≠ .timeout := by
  intro fuel
  induction fuel with
  | zero =>
    intro stuttered buf hlen hfuel
    rw [stutterTile, if_neg (by omega)]
    simp
  | succ fuel ih =>
    intro stuttered buf hlen hfuel
    by_cases hlt : stuttered < dur
    · rw [stutterTile, if_pos hlt]
      simp only
      by_cases htr : loc + stuttered + piece > buf.length
      · rw [if_pos htr, if_pos (by omega)]
        simp
      · rw [if_neg htr]
        dsimp only
        have hcw : copyWithin buf loc (loc + piece) (loc + stuttered) =
            some (buf.take (loc + stuttered) ++ (buf.drop loc).take (loc + piece - loc)
              ++ buf.drop (loc + stuttered + (loc + piece - loc))) := by
          unfold copyWithin
          rw [if_pos ⟨by omega, by omega, by omega⟩]
        rw [hcw]
        dsimp only
        have hlen' := copyWithin_length hcw
        exact ih (stuttered + piece) _ (by omega) (by omega)
    · rw [stutterTile, if_neg hlt]
      simp

theorem stutterTile_timeout_aux (loc dur : Nat) :
    ∀ (fuel stuttered : Nat) (buf : List α), loc + dur ≤ buf.length →
      stuttered < dur →
      (stutterTile loc 0 dur fuel stuttered buf).2 = .timeout := by
  intro fuel
  induction fuel with
  | zero =>
    intro stuttered buf hlen hlt
    rw [stutterTile, if_pos hlt]
  | succ fuel ih =>
    intro stuttered buf hlen hlt
    rw [stutterTile, if_pos hlt]
    dsimp only
    rw [if_neg (by omega : ¬loc + stuttered + 0 > buf.length)]
    dsimp only
    have hcw : copyWithin buf loc (loc + 0) (loc + stuttered) =
        some (buf.take (loc + stuttered) ++ (buf.drop loc).take (loc + 0 - loc)
          ++ buf.drop (loc + stuttered + (loc + 0 - loc))) := by
      unfold copyWithin
      rw [if_pos ⟨by omega, by omega, by omega⟩]
    rw [hcw]
    dsimp only
    have hlen' := copyWithin_length hcw
    exact ih (stuttered + 0) _ (by omega) (by omega)

theorem stutterTile_trace_aux (loc piece dur : Nat) (s₀ : List α) :
    ∀ (fuel stuttered : Nat) (buf : List α), loc + dur ≤ buf.length →
      piece ∣ stuttered → (buf.drop loc).take piece = s₀ →
      ∀ c ∈ (stutterTile loc piece dur fuel stuttered buf).1, c = s₀ := by
  intro fuel
  induction fuel with
  | zero =>
    intro stuttered buf hlen hdvd hs c hc
    rw [stutterTile] at hc
    split at hc <;> simp at hc
  | succ fuel ih =>
    intro stuttered buf hlen hdvd hs c hc
    by_cases hlt : stuttered < dur
    · rw [stutterTile, if_pos hlt] at hc
      dsimp only at hc
      by_cases htr : loc + stuttered + piece > buf.length
      · rw [if_pos htr, if_pos (by omega)] at hc
        simp at hc
      · rw [if_neg htr] at hc
        dsimp only at hc
        have hcw : copyWithin buf loc (loc + piece) (loc + stuttered) =
            some (buf.take (loc + stuttered) ++ (buf.drop loc).take (loc + piece - loc)
              ++ buf.drop (loc + stuttered + (loc + piece - loc))) := by
          unfold copyWithin
          rw [if_pos ⟨by omega, by omega, by omega⟩]
        rw [hcw] at hc
        dsimp only at hc
        rcases List.mem_cons.mp hc with hhd | htl
        · rw [hhd, hs]
        · have hlen' := copyWithin_length hcw
          refine ih (stuttered + piece) _ (by omega) (Dvd.dvd.add hdvd dvd_rfl) ?_ c htl
          rcases Nat.eq_zero_or_pos piece with hp0 | hp1
          · subst hp0
            rw [← hs]
            simp
          · rcases Nat.eq_zero_or_pos stuttered with hst0 | hst1
            · subst hst0
              have hsame := copyWithin_same (l := buf) (s := loc) (e := loc + piece)
                (by omega) (by omega)
              simp only [Nat.add_zero] at hcw ⊢
              have hbe := Option.some.inj (hsame.symm.trans hcw)
              rw [← hbe]
              exact hs
            · have hps : piece ≤ stuttered := Nat.le_of_dvd hst1 hdvd
              have htake := copyWithin_take_of_le hcw
                (b := loc + piece) (by omega)
              rw [← hs]
              exact slice_eq_of_take_eq htake
    · rw [stutterTile, if_neg hlt] at hc
      simp at hc

theorem stutterEvents_empty (p : StutterBlock) (rate : Nat) (e : Nat → Nat)
    (fuel r j : Nat) (hr : 1 ≤ r) :
    stutterEvents p rate e fuel r j ([] : List α) = .aborted := by
  cases r with
  | zero => omega
  | succ r =>
    rw [stutterEvents]
    cases genRangeNat p.durLo p.durHi (e (3 * j + 1)) with
    | none => rfl
    | some dn =>
      dsimp only
      cases genRangeNat p.pieceLo p.pieceHi (e (3 * j + 2)) with
      | none => rfl
      | some pn =>
        dsimp only
        by_cases hdur : durationToSamples dn rate > (List.length ([] : List α))
        · rw [if_pos hdur]
        · rw [if_neg hdur]
          have h0 : durationToSamples dn rate = 0 := by
            simp only [List.length_nil] at hdur; omega
          have : genRangeHalf ((List.length ([] : List α)) - durationToSamples dn rate)
              (e (3 * j + 3)) = none := by
            simp [genRangeHalf]
          rw [this]

theorem stutterEvents_duration_exceeds (p : StutterBlock) (rate : Nat)
    (e : Nat → Nat) (fuel r j : Nat) (buf : List α) (hr : 1 ≤ r)
    (hd : p.durLo = p.durHi)
    (hgt : buf.length < durationToSamples p.durLo rate) :
    stutterEvents p rate e fuel r j buf = .aborted := by
  cases r with
  | zero => omega
  | succ r =>
    rw [stutterEvents]
    have hdraw : genRangeNat p.durLo p.durHi (e (3 * j + 1)) = some p.durLo := by
      rw [genRangeNat, if_pos (by omega), hd]
      simp [Nat.mod_one]
    rw [hdraw]
    dsimp only
    cases genRangeNat p.pieceLo p.pieceHi (e (3 * j + 2)) with
    | none => rfl
    | some pn =>
      dsimp only
      rw [if_pos (by omega)]

/-- C1: the claim says the final tile copy is truncated so that no write
runs past the end of the buffer.  The code instead computes the truncated
length as `start - source.len()` — operands swapped — which underflows
(`start < len` always holds there), so the process aborts instead of
performing the truncated copy.  Failing input: 10 samples at 1000 Hz,
drawn count 1, duration 8 ms (8 samples), piece 7 ms (7 samples),
location 1: the second tile starts at 8 and 8 + 7 > 10. -/
theorem stutter_truncation_underflow_at_boundary :
    StutterBlock.process ⟨1, 1, 8000000, 8000000, 7000000, 7000000⟩
      (⟨[0, 1, 2, 3, 4, 5, 6, 7, 8, 9], 1000⟩ : SampleSource Nat)
      (fun n => if n = 3 then 1 else 0) 10 = .aborted := by decide

/-- C2 counterexample: with `factor = 1`, `factor_variation = 0`,
`target_duration` = 1 s, a 5-sample input at 1 Hz does not return the
first `target_duration`-worth (`[10]`): the window is 4× too long. -/
theorem alias_identity_counterexample :
    AliasBlock.process ⟨1, 0, 1000000000⟩
      (⟨[10, 20, 30, 40, 50], 1⟩ : SampleSource Nat) (fun _ => 0)
      ≠ .done ⟨2, 44100, [10]⟩ := by decide

/-- C2 amended: with `factor = 1`, `factor_variation = 0`, the Alias
Engine returns the first `4 × target_duration`-worth of the input (all of
it if shorter), re-stamped to 2 channels / 44100 Hz. -/
theorem alias_factor_one_returns_quadruple_window (d : Nat)
    (src : SampleSource α) (e : Nat → Nat) :
    AliasBlock.process ⟨1, 0, d⟩ src e =
      .done ⟨2, 44100,
        src.samples.take (durationToSamples (d * 1 * 4) src.sampleRate)⟩ := by
  simp [AliasBlock.process, aliasStage, RunResult.mapDone, stepBy_one]

/-- C3 counterexample: for an empty input and `stutter_count = 1..=1` the
stutter stage aborts (the location draw panics), rather than reporting a
recoverable `EmptySource`/`SourceTooShort` error — no error channel
exists in the code at all. -/
theorem stutter_empty_source_counterexample :
    StutterBlock.process ⟨1, 1, 0, 0, 0, 0⟩
      (⟨([] : List Nat), 1000⟩ : SampleSource Nat) (fun _ => 0) 10
      = .aborted := by decide

/-- C3 amended: with a drawn `stutter_count ≥ 1` (lower bound ≥ 1), an
empty input makes the stutter stage abort (panic), and likewise whenever
the drawn `stutter_duration` converts to more samples than the buffer
holds the stage aborts in the `stutter_location` range construction —
no recoverable error is reported. -/
theorem stutter_aborts_not_recoverable (p : StutterBlock)
    (src : SampleSource α) (e : Nat → Nat) (fuel : Nat)
    (h1 : 1 ≤ p.countLo) (h2 : p.countLo ≤ p.countHi) :
    (src.samples = [] → StutterBlock.process p src e fuel = .aborted) ∧
    (p.durLo = p.durHi →
      src.samples.length < durationToSamples p.durLo src.sampleRate →
      StutterBlock.process p src e fuel = .aborted) := by
  have hcount : genRangeNat p.countLo p.countHi (e 0) =
      some (p.countLo + e 0 % (p.countHi - p.countLo + 1)) := by
    rw [genRangeNat, if_pos h2]
  have hstage : ∀ buf : List α, stutterStage p src.sampleRate buf e fuel =
      stutterEvents p src.sampleRate e fuel
        (p.countLo + e 0 % (p.countHi - p.countLo + 1)) 0 buf := by
    intro buf
    unfold stutterStage
    rw [if_pos (by omega), hcount]
  constructor
  · intro hempty
    unfold StutterBlock.process
    rw [hstage, hempty, stutterEvents_empty _ _ _ _ _ _ (by omega)]
    rfl
  · intro hd hgt
    unfold StutterBlock.process
    rw [hstage, stutterEvents_duration_exceeds _ _ _ _ _ _ _ (by omega) hd hgt]
    rfl

/-- Witness for the amended C3 theorem at concrete inputs. -/
theorem stutter_aborts_not_recoverable_witness :
    StutterBlock.process ⟨1, 1, 0, 0, 0, 0⟩
      (⟨([] : List Nat), 1000⟩ : SampleSource Nat) (fun _ => 0) 5 = .aborted ∧
    StutterBlock.process ⟨1, 1, 5000000, 5000000, 0, 0⟩
      (⟨[1, 2], 1000⟩ : SampleSource Nat) (fun _ => 0) 5 = .aborted :=
  ⟨(stutter_aborts_not_recoverable _ _ _ _ (by decide) (by decide)).1 rfl,
   (stutter_aborts_not_recoverable _ _ _ _ (by decide) (by decide)).2 rfl
     (by decide)⟩

/-- C4: in the jittered path (`factor_variation ≥ 1`) the output is the
jitter walk over the `target_duration * factor` window, its length never
exceeds `target_sample_count = ⌊target_duration_secs · rate⌋`, and every
cursor advance (for any entropy value `x`) lies in
`[max(0, factor - variation), factor + variation]`; the walk is total —
running off the window's end just ends the output early, never an
error. -/
theorem alias_jitter_bounds (p : AliasBlock) (src : SampleSource α)
    (e : Nat → Nat) (x : Nat) (hv : 1 ≤ p.factorVariation) :
    AliasBlock.process p src e = .done ⟨2, 44100,
      jitterWalk
        (src.samples.take
          (durationToSamples (p.targetDuration * p.factor) src.sampleRate))
        p.factor p.factorVariation e
        (durationToSamples p.targetDuration src.sampleRate) 0 0⟩ ∧
    (jitterWalk
        (src.samples.take
          (durationToSamples (p.targetDuration * p.factor) src.sampleRate))
        p.factor p.factorVariation e
        (durationToSamples p.targetDuration src.sampleRate) 0 0).length
      ≤ durationToSamples p.targetDuration src.sampleRate ∧
    p.factor - p.factorVariation ≤ jitterStep p.factor p.factorVariation x ∧
    jitterStep p.factor p.factorVariation x ≤ p.factor + p.factorVariation := by
  refine ⟨?_, length_jitterWalk_le _ _ _ _ _ _ _,
    (jitterStep_bounds _ _ _).1, (jitterStep_bounds _ _ _).2⟩
  unfold AliasBlock.process aliasStage
  rw [if_neg (by omega)]
  rfl

/-- Witness for C4 at a concrete input (factor 2, variation 1, 1 s at
2 Hz over 5 samples). -/
theorem alias_jitter_bounds_witness :
    AliasBlock.process ⟨2, 1, 1000000000⟩
      (⟨[1, 2, 3, 4, 5], 2⟩ : SampleSource Nat) (fun _ => 0) = .done ⟨2, 44100,
      jitterWalk
        (([1, 2, 3, 4, 5] : List Nat).take (durationToSamples (1000000000 * 2) 2))
        2 1 (fun _ => 0) (durationToSamples 1000000000 2) 0 0⟩ ∧
    (jitterWalk
        (([1, 2, 3, 4, 5] : List Nat).take (durationToSamples (1000000000 * 2) 2))
        2 1 (fun _ => 0) (durationToSamples 1000000000 2) 0 0).length
      ≤ durationToSamples 1000000000 2 ∧
    2 - 1 ≤ jitterStep 2 1 5 ∧ jitterStep 2 1 5 ≤ 2 + 1 :=
  alias_jitter_bounds ⟨2, 1, 1000000000⟩ ⟨[1, 2, 3, 4, 5], 2⟩ (fun _ => 0) 5
    (by decide)

/-- C5: in the no-jitter path with `factor = k ≥ 1` the output is exactly
`step_by k` of the window covering `target_duration * factor * 4` of
source playback time: output sample `j` is window sample `j·k`, and the
output length is `⌈window_length / k⌉`, the number of multiples of `k`
below the window length. -/
theorem alias_decimation (p : AliasBlock) (src : SampleSource α)
    (e : Nat → Nat) (j : Nat) (hf : 1 ≤ p.factor)
    (hv : p.factorVariation = 0) :
    AliasBlock.process p src e = .done ⟨2, 44100,
      stepBy p.factor
        (src.samples.take
          (durationToSamples (p.targetDuration * p.factor * 4) src.sampleRate))⟩ ∧
    (stepBy p.factor
        (src.samples.take
          (durationToSamples (p.targetDuration * p.factor * 4) src.sampleRate))).length
      = ((src.samples.take
          (durationToSamples (p.targetDuration * p.factor * 4) src.sampleRate)).length
          + p.factor - 1) / p.factor ∧
    (stepBy p.factor
        (src.samples.take
          (durationToSamples (p.targetDuration * p.factor * 4) src.sampleRate)))[j]?
      = (src.samples.take
          (durationToSamples (p.targetDuration * p.factor * 4) src.sampleRate))[j * p.factor]? := by
  refine ⟨?_, length_stepBy _ hf _, getElem?_stepBy _ hf _ _⟩
  unfold AliasBlock.process aliasStage
  rw [if_pos hv, if_neg (by omega)]
  rfl

/-- Witness for C5: the spec's ramp scenario scaled down — factor 2 over
a ramp at 1 Hz, checked at output index 1. -/
theorem alias_decimation_witness :
    AliasBlock.process ⟨2, 0, 1000000000⟩
      (⟨[0, 1, 2, 3, 4, 5, 6, 7, 8, 9], 1⟩ : SampleSource Nat) (fun _ => 0)
      = .done ⟨2, 44100,
      stepBy 2 (([0, 1, 2, 3, 4, 5, 6, 7, 8, 9] : List Nat).take
        (durationToSamples (1000000000 * 2 * 4) 1))⟩ ∧
    (stepBy 2 (([0, 1, 2, 3, 4, 5, 6, 7, 8, 9] : List Nat).take
        (durationToSamples (1000000000 * 2 * 4) 1))).length
      = ((([0, 1, 2, 3, 4, 5, 6, 7, 8, 9] : List Nat).take
        (durationToSamples (1000000000 * 2 * 4) 1)).length + 2 - 1) / 2 ∧
    (stepBy 2 (([0, 1, 2, 3, 4, 5, 6, 7, 8, 9] : List Nat).take
        (durationToSamples (1000000000 * 2 * 4) 1)))[1]?
      = (([0, 1, 2, 3, 4, 5, 6, 7, 8, 9] : List Nat).take
        (durationToSamples (1000000000 * 2 * 4) 1))[1 * 2]? :=
  alias_decimation ⟨2, 0, 1000000000⟩ ⟨[0, 1, 2, 3, 4, 5, 6, 7, 8, 9], 1⟩
    (fun _ => 0) 1 (by decide) rfl

/-- C6: when the upper bound of `stutter_count` is 0 the Stutter Engine is
a no-op: the materialized input comes back with unchanged content,
re-stamped to 2 channels / 44100 Hz. -/
theorem stutter_noop_when_count_upper_zero (p : StutterBlock)
    (src : SampleSource α) (e : Nat → Nat) (fuel : Nat)
    (hp : p.countHi = 0) :
    StutterBlock.process p src e fuel = .done ⟨2, 44100, src.samples⟩ := by
  unfold StutterBlock.process stutterStage
  rw [hp, if_neg (lt_irrefl 0)]
  rfl

/-- Witness for C6 at a concrete input. -/
theorem stutter_noop_when_count_upper_zero_witness :
    StutterBlock.process ⟨0, 0, 0, 0, 0, 0⟩
      (⟨[4, 5, 6], 48000⟩ : SampleSource Nat) (fun _ => 0) 3
      = .done ⟨2, 44100, [4, 5, 6]⟩ :=
  stutter_noop_when_count_upper_zero ⟨0, 0, 0, 0, 0, 0⟩ ⟨[4, 5, 6], 48000⟩
    (fun _ => 0) 3 rfl

/-- C7: dichotomy of the stutter tiling loop started at
`stuttered_samples = 0` under the location invariant
`stutter_location + stutter_duration ≤ len(buffer)` established by the
location draw: with a drawn piece length of at least 1 sample the loop
needs at most `stutter_duration` iterations (fuel `dur` suffices — it is
never still running), while a piece length of 0 samples with a duration
of at least 1 sample never advances `stuttered_samples`, so the loop is
still running after every fuel bound: `process` does not terminate. -/
theorem stutter_tile_termination_dichotomy (loc piece dur fuel : Nat)
    (buf : List α) (hlen : loc + dur ≤ buf.length) :
    (1 ≤ piece → dur ≤ fuel →
      (stutterTile loc piece dur fuel 0 buf).2 ≠ .timeout) ∧
    (piece = 0 → 1 ≤ dur →
      (stutterTile loc piece dur fuel 0 buf).2 = .timeout) := by
  constructor
  · intro hp hfuel
    exact stutterTile_no_timeout_aux loc piece dur hp fuel 0 buf hlen (by omega)
  · intro hp hd
    subst hp
    exact stutterTile_timeout_aux loc dur fuel 0 buf hlen (by omega)

/-- Witness for C7: with piece 1 the loop finishes; with piece 0 it is
still running at fuel 7 (and, by the theorem, at every fuel). -/
theorem stutter_tile_termination_dichotomy_witness :
    ((stutterTile 0 1 2 5 0 ([5, 5, 5, 5] : List Nat)).2 ≠ .timeout) ∧
    ((stutterTile 0 0 2 7 0 ([5, 5, 5, 5] : List Nat)).2 = .timeout) :=
  ⟨(stutter_tile_termination_dichotomy 0 1 2 5 [5, 5, 5, 5] (by decide)).1
      (by decide) (by decide),
   (stutter_tile_termination_dichotomy 0 0 2 7 [5, 5, 5, 5] (by decide)).2
      rfl (by decide)⟩

/-- C8: every Output Buffer produced by `process` — the alias block (both
paths), the stutter block, and the `alias` pipeline — is stamped with
channel count 2 and sample rate 44100, whatever the input's rate. -/
theorem process_output_stamped (a : AliasBlock) (s : StutterBlock)
    (src : SampleSource α) (e₁ e₂ : Nat → Nat) (fuel : Nat)
    (b₁ b₂ b₃ : SamplesBuffer α) :
    (AliasBlock.process a src e₁ = .done b₁ →
      b₁.channels = 2 ∧ b₁.sampleRate = 44100) ∧
    (StutterBlock.process s src e₁ fuel = .done b₂ →
      b₂.channels = 2 ∧ b₂.sampleRate = 44100) ∧
    (aliasFn a s src e₁ e₂ fuel = .done b₃ →
      b₃.channels = 2 ∧ b₃.sampleRate = 44100) := by
  refine ⟨fun h => ?_, fun h => ?_, fun h => ?_⟩
  · obtain ⟨l, -, hb⟩ := mapDone_eq_done h
    rw [hb]
    exact ⟨rfl, rfl⟩
  · obtain ⟨l, -, hb⟩ := mapDone_eq_done h
    rw [hb]
    exact ⟨rfl, rfl⟩
  · unfold aliasFn at h
    cases hst : aliasStage a src e₁ with
    | done l =>
      rw [hst] at h
      obtain ⟨l', -, hb⟩ := mapDone_eq_done h
      rw [hb]
      exact ⟨rfl, rfl⟩
    | aborted => rw [hst] at h; cases h
    | timeout => rw [hst] at h; cases h

/-- Witness for C8 at a concrete run of each of the three entry points. -/
theorem process_output_stamped_witness :
    ((⟨2, 44100, [10, 20, 30, 40]⟩ : SamplesBuffer Nat).channels = 2 ∧
      (⟨2, 44100, [10, 20, 30, 40]⟩ : SamplesBuffer Nat).sampleRate = 44100) ∧
    ((⟨2, 44100, [10, 20, 30, 40, 50]⟩ : SamplesBuffer Nat).channels = 2 ∧
      (⟨2, 44100, [10, 20, 30, 40, 50]⟩ : SamplesBuffer Nat).sampleRate = 44100) ∧
    ((⟨2, 44100, [10, 20, 30, 40]⟩ : SamplesBuffer Nat).channels = 2 ∧
      (⟨2, 44100, [10, 20, 30, 40]⟩ : SamplesBuffer Nat).sampleRate = 44100) :=
  let thm := process_output_stamped ⟨1, 0, 1000000000⟩ ⟨0, 0, 0, 0, 0, 0⟩
    (⟨[10, 20, 30, 40, 50], 1⟩ : SampleSource Nat) (fun _ => 0) (fun _ => 0) 3
    ⟨2, 44100, [10, 20, 30, 40]⟩ ⟨2, 44100, [10, 20, 30, 40, 50]⟩
    ⟨2, 44100, [10, 20, 30, 40]⟩
  ⟨thm.1 (by decide), thm.2.1 (by decide), thm.2.2 (by decide)⟩

/-- C9: within one stutter event started at `stuttered_samples = 0` (with
the location invariant from the location draw), every tile copy writes
exactly the original content of
`[stutter_location, stutter_location + stutter_piece_length)` as it stood
at the start of the event — each copy writes the same sample values as
the first, never progressively-shifted content. -/
theorem stutter_copies_read_original (loc piece dur fuel : Nat)
    (buf : List α) (hlen : loc + dur ≤ buf.length) (c : List α)
    (hc : c ∈ (stutterTile loc piece dur fuel 0 buf).1) :
    c = (buf.drop loc).take piece :=
  stutterTile_trace_aux loc piece dur _ fuel 0 buf hlen (dvd_zero piece)
    rfl c hc

/-- Witness for C9: the second copy of a concrete event equals the
original window `[1, 2]`. -/
theorem stutter_copies_read_original_witness :
    ([1, 2] : List Nat) = (([0, 1, 2, 3, 4, 5, 6, 7] : List Nat).drop 1).take 2 :=
  stutter_copies_read_original 1 2 4 10 [0, 1, 2, 3, 4, 5, 6, 7]
    (by decide) [1, 2] (by decide)

/-- C10: `process` is deterministic given fixed random draws — two runs
of the alias block, the stutter block, or the `alias` pipeline that
consume the same sequence of random values produce identical outputs. -/
theorem process_deterministic_in_draws (a : AliasBlock) (s : StutterBlock)
    (src : SampleSource α) (fuel : Nat) (e₁ e₂ f₁ f₂ : Nat → Nat)
    (he : ∀ n, e₁ n = e₂ n) (hf : ∀ n, f₁ n = f₂ n) :
    AliasBlock.process a src e₁ = AliasBlock.process a src e₂ ∧
    StutterBlock.process s src e₁ fuel = StutterBlock.process s src e₂ fuel ∧
    aliasFn a s src e₁ f₁ fuel = aliasFn a s src e₂ f₂ fuel := by
  obtain rfl : e₁ = e₂ := funext he
  obtain rfl : f₁ = f₂ := funext hf
  exact ⟨rfl, rfl, rfl⟩

/-- Witness for C10: two syntactically different but pointwise-equal
entropy streams give identical outputs on a concrete input. -/
theorem process_deterministic_in_draws_witness :
    AliasBlock.process ⟨2, 1, 1000000000⟩
        (⟨[1, 2, 3], 2⟩ : SampleSource Nat) (fun _ => 0)
      = AliasBlock.process ⟨2, 1, 1000000000⟩ ⟨[1, 2, 3], 2⟩ (fun n => 0 * n) ∧
    StutterBlock.process ⟨1, 1, 1000000, 1000000, 1000000, 1000000⟩
        (⟨[1, 2, 3], 2⟩ : SampleSource Nat) (fun _ => 0) 4
      = StutterBlock.process ⟨1, 1, 1000000, 1000000, 1000000, 1000000⟩
        ⟨[1, 2, 3], 2⟩ (fun n => 0 * n) 4 ∧
    aliasFn ⟨2, 1, 1000000000⟩ ⟨1, 1, 1000000, 1000000, 1000000, 1000000⟩
        (⟨[1, 2, 3], 2⟩ : SampleSource Nat) (fun _ => 0) (fun _ => 0) 4
      = aliasFn ⟨2, 1, 1000000000⟩ ⟨1, 1, 1000000, 1000000, 1000000, 1000000⟩
        ⟨[1, 2, 3], 2⟩ (fun n => 0 * n) (fun n => 0 * n) 4 :=
  process_deterministic_in_draws ⟨2, 1, 1000000000⟩
    ⟨1, 1, 1000000, 1000000, 1000000, 1000000⟩ ⟨[1, 2, 3], 2⟩ 4
    (fun _ => 0) (fun n => 0 * n) (fun _ => 0) (fun n => 0 * n)
    (fun n => (Nat.zero_mul n).symm) (fun n => (Nat.zero_mul n).symm)
